import Mathlib

/-!
Verification of the opencode-kit tool wrappers.

This file gives a shallow embedding of the three TypeScript tools of the
repository (src/.opencode/tool/github-pr.ts, github-pr-review.ts,
github-pr-comments.ts).  Pure logic (PR-reference parsing, bot
classification, comment threading, payload building, size classification)
is translated directly; the external process invocations (the gh CLI) and
the JSON decoding of their stdout are modelled as an environment record
supplying, for each call, either a parsed value or a thrown error message.
JavaScript builtins used by the code (parseInt, String.prototype.match for
the one fixed regex, truthiness tests, JSON.stringify field dropping) are
modelled explicitly below, next to the definitions that use them.
-/

namespace OpencodeKit

/-! ## Models of the JavaScript builtins used by the source -/

/-- Digit-string value, used for the regex capture `(\d+)` and for the
digit run consumed by parseInt. -/
def digitsToNat (ds : List Char) : Nat :=
  ds.foldl (fun a c => a * 10 + (c.toNat - 48)) 0

/-- The StrWhiteSpace characters skipped by JavaScript parseInt:
space, tab, LF, CR, VT, FF, NBSP, BOM (further Unicode space separators
exist but never occur in the claims). -/
def jsWhitespace (c : Char) : Bool :=
  [' ', '\t', '\n', '\r', Char.ofNat 11, Char.ofNat 12,
    Char.ofNat 160, Char.ofNat 65279].contains c

/-- Model of JavaScript parseInt(s, 10): skip whitespace, read an optional
sign, then the maximal (possibly overshooting) run of decimal digits; NaN
(here: none) when that run is empty.  parseInt("12abc", 10) = 12. -/
def jsParseInt10 (s : String) : Option Int :=
  let cs := s.data.dropWhile jsWhitespace
  match cs with
  | '-' :: rest =>
    let ds := rest.takeWhile Char.isDigit
    if ds.isEmpty then none else some (-(digitsToNat ds : Int))
  | '+' :: rest =>
    let ds := rest.takeWhile Char.isDigit
    if ds.isEmpty then none else some ((digitsToNat ds : Int))
  | _ =>
    let ds := cs.takeWhile Char.isDigit
    if ds.isEmpty then none else some ((digitsToNat ds : Int))

/-- Model of JavaScript String.prototype.split with a one-character
separator: split accumulator helper. -/
def jsSplitAux (sep : Char) (acc : List Char) : List Char → List String
  | [] => [String.mk acc.reverse]
  | c :: cs =>
    if c = sep then String.mk acc.reverse :: jsSplitAux sep [] cs
    else jsSplitAux sep (c :: acc) cs

/-- JavaScript s.split(sep) for a single-character separator:
"a/b".split("/") = ["a","b"], "".split("/") = [""], "a/".split("/") = ["a",""]. -/
def jsSplitChar (sep : Char) (s : String) : List String :=
  jsSplitAux sep [] s.data

/-- Drop an expected literal character sequence, or fail. -/
def dropLit : List Char → List Char → Option (List Char)
  | [], cs => some cs
  | _ :: _, [] => none
  | p :: ps, c :: cs => if c = p then dropLit ps cs else none

/-!
Model of s.match(r) for the one regex of the source,
r = github\.com\/([^\/]+)\/([^\/]+)\/pull\/(\d+)  (no flags).

JavaScript semantics: leftmost match wins; each `[^\/]+` and `\d+` is
greedy.  For this particular pattern greediness is forced: `[^\/]+` is a
run of non-slash characters that must be followed by a literal `/`, so no
shorter run than the maximal one can ever let the following literal
match, and `\d+` is final so the maximal digit run is taken.   Hence the
whole match is deterministic given the start position, and the engine's
start position is the leftmost index at which `matchUrlAt` succeeds. -/

/-- Attempt the regex at the start of the character list, returning the
three captures (owner, repo, digits value). -/
def matchUrlAt (cs : List Char) : Option (String × String × Nat) :=
  match dropLit "github.com/".data cs with
  | none => none
  | some r0 =>
    let owner := r0.takeWhile (fun c => c != '/')
    let r1 := r0.dropWhile (fun c => c != '/')
    if owner.isEmpty then none
    else
      match dropLit ['/'] r1 with
      | none => none
      | some r2 =>
        let repo := r2.takeWhile (fun c => c != '/')
        let r3 := r2.dropWhile (fun c => c != '/')
        if repo.isEmpty then none
        else
          match dropLit "/pull/".data r3 with
          | none => none
          | some r4 =>
            let ds := r4.takeWhile Char.isDigit
            if ds.isEmpty then none
            else some (String.mk owner, String.mk repo, digitsToNat ds)

/-- Leftmost match of the PR-URL regex anywhere in the string. -/
def findUrlMatch : List Char → Option (String × String × Nat)
  | [] => none
  | c :: cs =>
    match matchUrlAt (c :: cs) with
    | some m => some m
    | none => findUrlMatch cs

/-! ## parsePrReference (identical in all three tool files) -/

/-- The record returned by parsePrReference.  number is an Int because
JavaScript parseInt can produce negative values. -/
structure PrRef where
  owner : String
  repo : String
  number : Int
deriving DecidableEq, Repr

/-- Direct translation of parsePrReference from
src/.opencode/tool/github-pr.ts lines 10-35 (the same function is
repeated verbatim in github-pr-review.ts and github-pr-comments.ts).
The thrown Error is modelled as Except.error carrying the message. -/
def parsePrReference (pr : String) (repo : Option String) : Except String PrRef :=
  match findUrlMatch pr.data with
  | some (o, r, n) => .ok ⟨o, r, (n : Int)⟩
  | none =>
    match jsParseInt10 pr with
    | some num =>
      match repo with
      | some rp =>
        -- JS: if (repo) { const [owner, repoName] = repo.split("/"); if (owner && repoName) ... }
        if rp != "" then
          let parts := jsSplitChar '/' rp
          let owner := parts.getD 0 ""
          let repoName := parts.getD 1 ""
          if owner != "" && repoName != "" then .ok ⟨owner, repoName, num⟩
          else .ok ⟨"", "", num⟩
        else .ok ⟨"", "", num⟩
      | none => .ok ⟨"", "", num⟩
    | none => .error ("Invalid PR reference: " ++ pr ++ ". Provide a PR URL or number.")

/-- JavaScript s.trim(): strip leading and trailing whitespace. -/
def jsTrim (s : String) : String :=
  String.mk (((s.data.dropWhile jsWhitespace).reverse.dropWhile jsWhitespace).reverse)

/-- True when pat occurs as a contiguous run in the list (model of
JavaScript String.prototype.includes). -/
def listHasLit (pat : List Char) : List Char → Bool
  | [] => pat.isEmpty
  | c :: cs => (dropLit pat (c :: cs)).isSome || listHasLit pat cs

/-- JavaScript s.includes(sub). -/
def strIncludes (s sub : String) : Bool :=
  listHasLit sub.data s.data

/-- A tool invocation either throws an uncaught exception past the tool
boundary or returns a value to the caller. -/
inductive ToolResult (α : Type) where
  | thrown (msg : String)
  | returned (out : α)
deriving DecidableEq

/-! ## github-pr-comments.ts: bot classifier, data shaping, threading -/

/-- True when suf is a suffix of cs. -/
def listEndsWith (suf cs : List Char) : Bool :=
  (dropLit suf.reverse cs.reverse).isSome

/-- Direct translation of isLikelyBot (github-pr-comments.ts lines 35-48).
Every pattern carries the i flag, so the login is lowercased once here;
the end-anchored patterns become suffix tests, the fully anchored
patterns become whole-string comparisons. -/
def isLikelyBot (login : String) : Bool :=
  let l := login.data.map Char.toLower
  listEndsWith "[bot]".data l || listEndsWith "bot".data l ||
  l == "github-actions".data || l == "dependabot".data || l == "renovate".data ||
  l == "codecov".data || l == "sonarcloud".data || l == "netlify".data ||
  l == "vercel".data

/-- One element of the JSON array returned by
gh api repos/{repo}/pulls/{n}/comments (the fields the tool reads).
line and original_line may be null; in_reply_to_id may be absent (both
absent and null are none). -/
structure RawReviewComment where
  id : Nat
  path : String
  line : Option Int
  original_line : Option Int
  side : String
  body : String
  login : String
  created_at : String
  updated_at : String
  in_reply_to_id : Option Nat
  diff_hunk : String
  html_url : String
deriving DecidableEq, Repr

/-- The ReviewComment record built by the tool (interface at
github-pr-comments.ts lines 50-64). -/
structure RComment where
  id : Nat
  path : String
  line : Option Int
  originalLine : Option Int
  side : String
  body : String
  author : String
  isBot : Bool
  createdAt : String
  updatedAt : String
  inReplyToId : Option Nat
  diffHunk : String
  url : String
deriving DecidableEq, Repr

/-- JS x || null for a number-or-absent value: 0 and absent both become
null. -/
def jsOrNullNat : Option Nat → Option Nat
  | some 0 => none
  | x => x

/-- The mapping at github-pr-comments.ts lines 117-144. -/
def shapeReviewComment (c : RawReviewComment) : RComment :=
  ⟨c.id, c.path, c.line, c.original_line, c.side, c.body, c.login,
   isLikelyBot c.login, c.created_at, c.updated_at,
   jsOrNullNat c.in_reply_to_id, c.diff_hunk, c.html_url⟩

/-- JS truthiness of a number-or-null value: null and 0 are falsy. -/
def jsTruthyOptNat : Option Nat → Bool
  | none => false
  | some n => n != 0

/-- github-pr-comments.ts line 200:
const topLevelComments = reviewComments.filter(c => !c.inReplyToId). -/
def topLevelComments (comments : List RComment) : List RComment :=
  comments.filter (fun c => !(jsTruthyOptNat c.inReplyToId))

/-- One element of the threads output. -/
structure Thread where
  parent : RComment
  replies : List RComment
deriving DecidableEq, Repr

/-- github-pr-comments.ts lines 201-204: one thread per top-level comment,
replies are the comments whose inReplyToId strictly equals the parent id. -/
def mkThreads (comments : List RComment) : List Thread :=
  (topLevelComments comments).map (fun parent =>
    ⟨parent, comments.filter (fun c => c.inReplyToId == some parent.id)⟩)

/-- Raw issue comment as read from gh api repos/{repo}/issues/{n}/comments. -/
structure RawIssueComment where
  id : Nat
  body : String
  login : String
  created_at : String
  updated_at : String
  html_url : String
deriving DecidableEq, Repr

/-- The IssueComment record (github-pr-comments.ts lines 66-74). -/
structure IComment where
  id : Nat
  body : String
  author : String
  isBot : Bool
  createdAt : String
  updatedAt : String
  url : String
deriving DecidableEq, Repr

/-- The mapping at github-pr-comments.ts lines 150-165. -/
def shapeIssueComment (c : RawIssueComment) : IComment :=
  ⟨c.id, c.body, c.login, isLikelyBot c.login, c.created_at, c.updated_at,
   c.html_url⟩

/-- Raw review as read from gh api repos/{repo}/pulls/{n}/reviews (body
may be null). -/
structure RawReview where
  id : Nat
  state : String
  body : Option String
  login : String
  submitted_at : String
  html_url : String
deriving DecidableEq, Repr

/-- The Review record (github-pr-comments.ts lines 76-84). -/
structure Review where
  id : Nat
  state : String
  body : String
  author : String
  isBot : Bool
  submittedAt : String
  url : String
deriving DecidableEq, Repr

/-- The mapping at github-pr-comments.ts lines 173-188; r.body || ""
turns both null and "" into "". -/
def shapeReview (r : RawReview) : Review :=
  ⟨r.id, r.state, r.body.getD "", r.login, isLikelyBot r.login,
   r.submitted_at, r.html_url⟩

/-- github-pr-comments.ts lines 171-188: reviews are filtered to exclude
state "PENDING" before shaping. -/
def mkReviews (raw : List RawReview) : List Review :=
  (raw.filter (fun r => r.state != "PENDING")).map shapeReview

/-- github-pr-comments.ts lines 191-197: group review comments by file
path, buckets in first-seen order, each bucket in input order (JS object
string keys keep insertion order). -/
def groupByFile (comments : List RComment) : List (String × List RComment) :=
  comments.foldl (fun acc c =>
    if acc.any (fun kv => kv.1 == c.path) then
      acc.map (fun kv => if kv.1 == c.path then (kv.1, kv.2 ++ [c]) else kv)
    else acc ++ [(c.path, [c])]) []

/-- The stats block (github-pr-comments.ts lines 207-214). -/
structure CommentsStats where
  totalReviewComments : Nat
  totalIssueComments : Nat
  totalReviews : Nat
  filesWithComments : Nat
  botComments : Nat
  unresolvedThreads : Nat
deriving DecidableEq, Repr

/-- The success output of the comments tool (lines 216-223). -/
structure CommentsOutput where
  stats : CommentsStats
  reviews : List Review
  issueComments : List IComment
  reviewComments : List RComment
  commentsByFile : List (String × List RComment)
  threads : List Thread
deriving DecidableEq, Repr

/-- The pure reshaping the comments tool performs on the three fetched
JSON arrays (github-pr-comments.ts lines 117-223). -/
def mkCommentsOutput (rc : List RawReviewComment) (ic : List RawIssueComment)
    (rv : List RawReview) : CommentsOutput :=
  let reviewComments := rc.map shapeReviewComment
  let issueComments := ic.map shapeIssueComment
  let reviews := mkReviews rv
  let commentsByFile := groupByFile reviewComments
  let threads := mkThreads reviewComments
  { stats :=
      { totalReviewComments := reviewComments.length
        totalIssueComments := issueComments.length
        totalReviews := reviews.length
        filesWithComments := commentsByFile.length
        botComments := (reviewComments.filter (fun c => c.isBot)).length +
          (issueComments.filter (fun c => c.isBot)).length
        unresolvedThreads := threads.length }
    reviews := reviews
    issueComments := issueComments
    reviewComments := reviewComments
    commentsByFile := commentsByFile
    threads := threads }

/-- What the comments tool returns to its caller: either a structured
error object (a JSON object whose error field is the given string) or the
full output object. -/
inductive CommentsResult where
  | errorOut (error : String)
  | okOut (out : CommentsOutput)
deriving DecidableEq, Repr

/-- Arguments of the comments tool. -/
structure CommentsArgs where
  pr : String
  repo : Option String
deriving DecidableEq, Repr

/-- Environment: outcome of each external gh invocation (the raw JSON of
a successful call is given already decoded; a throw anywhere in the
call-plus-JSON.parse pipeline is the error message). -/
structure CommentsEnv where
  repoView : Except String String
  reviewCommentsRaw : Except String (List RawReviewComment)
  issueCommentsRaw : Except String (List RawIssueComment)
  reviewsRaw : Except String (List RawReview)

/-- The catch handler of github-pr-comments.ts lines 226-241. -/
def classifyCommentsError (msg : String) : String :=
  if strIncludes msg "gh: command not found" then
    "GitHub CLI (gh) is not installed. Please install it from https://cli.github.com/"
  else if strIncludes msg "not logged in" || strIncludes msg "401" then
    "Not authenticated with GitHub. Please run \x27gh auth login\x27 first."
  else msg

/-- Everything the comments tool does after parsePrReference: each of
these code paths returns (every await after the parse is wrapped in a
try whose catch returns a structured error object). -/
def executeCommentsBody (parsed : PrRef) (env : CommentsEnv) : CommentsResult :=
  let ctx : Except Unit String :=
    if parsed.owner != "" && parsed.repo != "" then
      .ok (parsed.owner ++ "/" ++ parsed.repo)
    else
      match env.repoView with
      | .ok t => .ok (jsTrim t)
      | .error _ => .error ()
  match ctx with
  | .error _ => .errorOut
      "Could not determine repository. Please provide the full PR URL or run from within a git repository."
  | .ok _repoContext =>
    match (do
        let a ← env.reviewCommentsRaw
        let b ← env.issueCommentsRaw
        let c ← env.reviewsRaw
        pure (a, b, c) : Except String _) with
    | .ok (a, b, c) => .okOut (mkCommentsOutput a b c)
    | .error msg => .errorOut (classifyCommentsError msg)

/-- Model of the execute function of github-pr-comments.ts.  Note that
parsePrReference is invoked before any try block, so its exception
escapes (ToolResult.thrown); every later failure is caught and returned
as a structured error object. -/
def executeComments (args : CommentsArgs) (env : CommentsEnv) :
    ToolResult CommentsResult :=
  match parsePrReference args.pr args.repo with
  | .error e => .thrown e
  | .ok parsed => .returned (executeCommentsBody parsed env)

/-! ## github-pr.ts: PR snapshot fetcher -/

/-- JS x || d for a string-or-null value: null and "" both give d. -/
def jsOrDefaultStr (x : Option String) (d : String) : String :=
  match x with
  | some s => if s != "" then s else d
  | none => d

/-- One commit as delivered by gh (messageBody may be empty). -/
structure RawCommit where
  messageHeadline : String
  messageBody : String
deriving DecidableEq, Repr

/-- One changed file as delivered by gh. -/
structure RawFile where
  path : String
  additions : Nat
  deletions : Nat
deriving DecidableEq, Repr

/-- The PR metadata JSON fields the tool reads (github-pr.ts line 55);
body may be null. -/
structure Metadata where
  number : Nat
  title : String
  body : Option String
  author_login : String
  baseRefName : String
  headRefName : String
  state : String
  isDraft : Bool
  additions : Nat
  deletions : Nat
  changedFiles : Nat
  commits : List RawCommit
  createdAt : String
  updatedAt : String
  url : String
deriving DecidableEq, Repr

/-- The size classifier of github-pr.ts lines 73-82, a function of
totalLinesChanged = additions + deletions. -/
def sizeCategory (totalLinesChanged : Nat) : String :=
  if totalLinesChanged ≤ 100 then "small"
  else if totalLinesChanged ≤ 500 then "medium"
  else if totalLinesChanged ≤ 1000 then "large"
  else "very large"

/-- output.metadata (github-pr.ts lines 86-98). -/
structure PrMetaOut where
  number : Nat
  title : String
  description : String
  author : String
  baseRef : String
  headRef : String
  state : String
  isDraft : Bool
  url : String
  createdAt : String
  updatedAt : String
deriving DecidableEq, Repr

/-- output.stats (github-pr.ts lines 99-106). -/
structure PrStatsOut where
  additions : Nat
  deletions : Nat
  totalLinesChanged : Nat
  changedFiles : Nat
  sizeCategory : String
  commits : Nat
deriving DecidableEq, Repr

/-- One entry of output.commitMessages; body is dropped from the JSON
when messageBody is empty (|| undefined). -/
structure CommitMsg where
  headline : String
  body : Option String
deriving DecidableEq, Repr

/-- The success output of the snapshot tool (github-pr.ts lines 85-117). -/
structure PrOutputData where
  metadata : PrMetaOut
  stats : PrStatsOut
  files : List RawFile
  commitMessages : List CommitMsg
  diff : String
deriving DecidableEq, Repr

/-- The pure output shaping of github-pr.ts lines 69-117. -/
def mkPrOutput (m : Metadata) (diffResult : String) (files : List RawFile)
    (commits : List RawCommit) : PrOutputData :=
  let totalLinesChanged := m.additions + m.deletions
  { metadata :=
      { number := m.number
        title := m.title
        description := jsOrDefaultStr m.body "(no description)"
        author := m.author_login
        baseRef := m.baseRefName
        headRef := m.headRefName
        state := m.state
        isDraft := m.isDraft
        url := m.url
        createdAt := m.createdAt
        updatedAt := m.updatedAt }
    stats :=
      { additions := m.additions
        deletions := m.deletions
        totalLinesChanged := totalLinesChanged
        changedFiles := m.changedFiles
        sizeCategory := sizeCategory totalLinesChanged
        commits := m.commits.length }
    files := files.map (fun f => ⟨f.path, f.additions, f.deletions⟩)
    commitMessages := commits.map (fun c =>
      ⟨c.messageHeadline, if c.messageBody != "" then some c.messageBody else none⟩)
    diff := jsTrim diffResult }

/-- What the snapshot tool returns: a structured error object with an
error string field, or the output object. -/
inductive PrResult where
  | errorOut (error : String)
  | okOut (out : PrOutputData)
deriving DecidableEq, Repr

/-- Arguments of the snapshot tool. -/
structure PrArgs where
  pr : String
  repo : Option String
deriving DecidableEq, Repr

/-- Environment: the four sequential gh invocations of github-pr.ts
(metadata view, diff, files view, commits view); JSON decoding failures
are folded into the error message as both run inside the same try. -/
structure PrEnv where
  prViewMeta : Except String Metadata
  prDiff : Except String String
  prFiles : Except String (List RawFile)
  prCommits : Except String (List RawCommit)

/-- The catch handler of github-pr.ts lines 120-141. -/
def classifyPrError (msg : String) (number : Int) : String :=
  if strIncludes msg "gh: command not found" then
    "GitHub CLI (gh) is not installed. Please install it from https://cli.github.com/"
  else if strIncludes msg "not logged in" then
    "Not authenticated with GitHub. Please run \x27gh auth login\x27 first."
  else if strIncludes msg "Could not resolve" then
    "Could not find PR #" ++ toString number ++
      ". Make sure you\x27re in a git repository or provide the full PR URL."
  else msg

/-- Everything the snapshot tool does after parsePrReference: the try
block around the four sequential fetches, whose catch returns a
structured error object, so every path returns. -/
def executePrBody (parsed : PrRef) (env : PrEnv) : PrResult :=
  match (do
      let m ← env.prViewMeta
      let d ← env.prDiff
      let fs ← env.prFiles
      let cs ← env.prCommits
      pure (m, d, fs, cs) : Except String _) with
  | .ok (m, d, fs, cs) => .okOut (mkPrOutput m d fs cs)
  | .error msg => .errorOut (classifyPrError msg parsed.number)

/-- Model of the execute function of github-pr.ts.  parsePrReference runs
before the try block, so its exception escapes; every failure inside the
try is returned as a structured error object. -/
def executePr (args : PrArgs) (env : PrEnv) : ToolResult PrResult :=
  match parsePrReference args.pr args.repo with
  | .error e => .thrown e
  | .ok parsed => .returned (executePrBody parsed env)

/-! ## github-pr-review.ts: review payload builder and submitter -/

/-- One inline comment argument (commentSchema, github-pr-review.ts lines
33-40); side/startLine/startSide are optional. -/
structure CommentInput where
  path : String
  line : Nat
  side : Option String
  startLine : Option Nat
  startSide : Option String
  body : String
deriving DecidableEq, Repr

/-- Arguments of the review tool (lines 44-51). -/
structure ReviewArgs where
  pr : String
  repo : Option String
  body : String
  event : Option String
  comments : Option (List CommentInput)
  dryRun : Option Bool
deriving DecidableEq, Repr

/-- One comment of the review POST payload; an optional field that is
none is genuinely absent from the serialized JSON (the code only assigns
it when the input passes a JS truthiness test).  Serialization key order
is path, line, body, then side, start_line, start_side. -/
structure PayloadComment where
  path : String
  line : Nat
  side : Option String
  start_line : Option Nat
  start_side : Option String
  body : String
deriving DecidableEq, Repr

/-- JS truthiness guard for an optional string ("" is falsy). -/
def truthyStr : Option String → Option String
  | some s => if s != "" then some s else none
  | none => none

/-- JS truthiness guard for an optional number (0 is falsy). -/
def truthyNat : Option Nat → Option Nat
  | some n => if n != 0 then some n else none
  | none => none

/-- The per-comment mapping of github-pr-review.ts lines 103-120:
if (c.side) comment.side = c.side, and likewise for startLine and
startSide. -/
def mapPayloadComment (c : CommentInput) : PayloadComment :=
  ⟨c.path, c.line, truthyStr c.side, truthyNat c.startLine,
   truthyStr c.startSide, c.body⟩

/-- The review POST payload (lines 83-99); comments is absent (none)
rather than an empty array when no inline comments were given. -/
structure ReviewPayload where
  commit_id : String
  body : String
  event : String
  comments : Option (List PayloadComment)
deriving DecidableEq, Repr

/-- Lines 95-121: the payload always carries commit_id, body, event; the
comments field is added only when the input list is non-empty. -/
def buildReviewPayload (commitId body event : String)
    (comments : List CommentInput) : ReviewPayload :=
  { commit_id := commitId
    body := body
    event := event
    comments :=
      if comments.length > 0 then some (comments.map mapPayloadComment)
      else none }

/-- One comment of the dry-run echo (lines 136-141): an object literal
with keys file, line, startLine, body; startLine is passed through with
no truthiness test and is dropped from the JSON only when undefined. -/
structure PreviewComment where
  file : String
  line : Nat
  startLine : Option Nat
  body : String
deriving DecidableEq, Repr

/-- The per-comment mapping of the dry-run echo. -/
def mkPreviewComment (c : CommentInput) : PreviewComment :=
  ⟨c.path, c.line, c.startLine, c.body⟩

/-- The dry-run return object of lines 128-145 ({dryRun: true,
wouldSubmit: {...}, message}), with the wouldSubmit fields inlined;
the dryRun discriminator is this constructor choice.  The dead
destructuring of repoContext.split("/") at line 125 binds unused names
and is not modelled. -/
structure DryRunObj where
  repository : String
  pullRequest : Int
  prUrl : String
  event : String
  reviewBody : String
  inlineComments : List PreviewComment
  totalInlineComments : Nat
  message : String
deriving DecidableEq, Repr

/-- The parsed response of a successful review POST (fields read at lines
157-169). -/
structure ApiReviewResponse where
  id : Nat
  html_url : String
  state : String
  submitted_at : String
deriving DecidableEq, Repr

/-- The success return object of lines 157-170 ({success: true, ...,
summary: {...}}), with the summary fields inlined; the success
discriminator is this constructor choice. -/
structure SuccessObj where
  reviewId : Nat
  reviewUrl : String
  state : String
  submittedAt : String
  repository : String
  pullRequest : Int
  event : String
  inlineCommentsPosted : Nat
  message : String
deriving DecidableEq, Repr

/-- A structured error object returned by the review tool: always an
error string field, optionally message/errors (API error pass-through,
lines 178-182) or details (422 branch, lines 198-203). -/
structure ErrorObj where
  error : String
  message : Option String
  errors : Option String
  details : Option String
deriving DecidableEq, Repr

/-- What JSON.parse produced from the brace-extract of a gh api error
message (fields read at lines 177-182). -/
structure ApiError where
  message : Option String
  errors : Option String
deriving DecidableEq, Repr

/-- What the review tool returns: a structured error object, the dry-run
echo, or the submission confirmation. -/
inductive ReviewOutput where
  | errorOut (e : ErrorObj)
  | dryRunOut (d : DryRunObj)
  | successOut (s : SuccessObj)
deriving DecidableEq, Repr

/-- One external gh CLI invocation made by the review tool. -/
inductive GhCall where
  | repoView
  | headSha (repoContext : String) (number : Int)
  | submitReview (repoContext : String) (number : Int) (payload : ReviewPayload)
deriving DecidableEq, Repr

/-- Environment for the review tool: outcome of each gh invocation, plus
a model of JSON.parse as used on the brace-substring of a thrown API
error message (a JS builtin, so its behaviour is a collaborator). -/
structure ReviewEnv where
  repoView : Except String String
  headSha : Except String String
  submit : Except String ApiReviewResponse
  parseApiError : String → Option ApiError

/-- Model of error.message.match(/\x7b[\s\S]*\x7d/): the substring from
the first opening brace through the last closing brace after it, if both
exist (the inner repetition is greedy and dotall). -/
def extractBraces (msg : String) : Option String :=
  let rest := msg.data.dropWhile (fun c => c != '{')
  if rest.isEmpty then none
  else
    let rev := rest.reverse.dropWhile (fun c => c != '}')
    if rev.isEmpty then none else some (String.mk rev.reverse)

/-- The substring cascade of the catch handler, lines 188-206. -/
def handleSubmitFallback (msg : String) : ErrorObj :=
  if strIncludes msg "gh: command not found" then
    ⟨"GitHub CLI (gh) is not installed. Please install it from https://cli.github.com/",
     none, none, none⟩
  else if strIncludes msg "not logged in" || strIncludes msg "401" then
    ⟨"Not authenticated with GitHub. Please run \x27gh auth login\x27 first.",
     none, none, none⟩
  else if strIncludes msg "422" then
    ⟨"Invalid review submission. This often means a comment references a line that doesn\x27t exist in the diff. Check that all line numbers are correct.",
     none, none, some msg⟩
  else ⟨msg, none, none, none⟩

/-- The catch handler of lines 171-207: try to surface a parsed API error
body, else fall back to the substring cascade. -/
def handleSubmitError (parse : String → Option ApiError) (msg : String) :
    ErrorObj :=
  match extractBraces msg with
  | some sub =>
    match parse sub with
    | some apiErr => ⟨"Failed to submit review", apiErr.message, apiErr.errors, none⟩
    | none => handleSubmitFallback msg
  | none => handleSubmitFallback msg

/-- The repository-context step of github-pr-review.ts lines 57-69: use
owner/repo from the parsed reference when both are non-empty, else ask
gh repo view (one CLI call, recorded in the second component); its
failure is reported as none. -/
def resolveRepoContext (parsed : PrRef) (repoView : Except String String) :
    Option String × List GhCall :=
  if parsed.owner != "" && parsed.repo != "" then
    (some (parsed.owner ++ "/" ++ parsed.repo), [])
  else
    match repoView with
    | .ok t => (some (jsTrim t), [GhCall.repoView])
    | .error _ => (none, [GhCall.repoView])

/-- Everything the review tool does after parsePrReference: each path
returns (every later await sits in a try whose catch returns a
structured error object).  The second component lists the gh CLI
invocations performed, in order.  Defaults are event = COMMENT,
comments = [], dryRun = false (line 53). -/
def executeReviewBody (args : ReviewArgs) (parsed : PrRef) (env : ReviewEnv) :
    ReviewOutput × List GhCall :=
  match resolveRepoContext parsed env.repoView with
  | (none, tr) =>
    (.errorOut
      ⟨"Could not determine repository. Please provide the full PR URL or run from within a git repository.",
       none, none, none⟩, tr)
  | (some repoContext, tr0) =>
    match env.headSha with
    | .error msg =>
      (.errorOut ⟨"Could not fetch PR details: " ++ msg, none, none, none⟩,
       tr0 ++ [GhCall.headSha repoContext parsed.number])
    | .ok shaText =>
      if args.dryRun.getD false then
        (.dryRunOut
          { repository := repoContext
            pullRequest := parsed.number
            prUrl := "https://github.com/" ++ repoContext ++ "/pull/" ++
              toString parsed.number
            event := args.event.getD "COMMENT"
            reviewBody := args.body
            inlineComments := (args.comments.getD []).map mkPreviewComment
            totalInlineComments := (args.comments.getD []).length
            message := "Dry run complete. No review was submitted. Remove --dry-run to submit the review." },
         tr0 ++ [GhCall.headSha repoContext parsed.number])
      else
        match env.submit with
        | .ok resp =>
          (.successOut
            { reviewId := resp.id
              reviewUrl := resp.html_url
              state := resp.state
              submittedAt := resp.submitted_at
              repository := repoContext
              pullRequest := parsed.number
              event := args.event.getD "COMMENT"
              inlineCommentsPosted := (args.comments.getD []).length
              message := "Review submitted successfully. View it at: " ++ resp.html_url },
           tr0 ++ [GhCall.headSha repoContext parsed.number,
             GhCall.submitReview repoContext parsed.number
               (buildReviewPayload (jsTrim shaText) args.body
                 (args.event.getD "COMMENT") (args.comments.getD []))])
        | .error msg =>
          (.errorOut (handleSubmitError env.parseApiError msg),
           tr0 ++ [GhCall.headSha repoContext parsed.number,
             GhCall.submitReview repoContext parsed.number
               (buildReviewPayload (jsTrim shaText) args.body
                 (args.event.getD "COMMENT") (args.comments.getD []))])

/-- Model of the execute function of github-pr-review.ts.
parsePrReference runs before any try block, so its exception escapes
(ToolResult.thrown); otherwise the body result is returned.  The second
component lists the gh CLI invocations performed, in order. -/
def executeReview (args : ReviewArgs) (env : ReviewEnv) :
    ToolResult ReviewOutput × List GhCall :=
  match parsePrReference args.pr args.repo with
  | .error e => (.thrown e, [])
  | .ok parsed =>
    (.returned (executeReviewBody args parsed env).1,
     (executeReviewBody args parsed env).2)

/-- The JSON keys present on one serialized payload comment, in
serialization order (optional fields that are none are absent). -/
def payloadCommentFields (c : PayloadComment) : List String :=
  ["path", "line", "body"] ++
  (if c.side.isSome then ["side"] else []) ++
  (if c.start_line.isSome then ["start_line"] else []) ++
  (if c.start_side.isSome then ["start_side"] else [])

/-- The JSON keys present on one serialized dry-run echo comment
(JSON.stringify drops the startLine key when the value is undefined). -/
def previewCommentFields (c : PreviewComment) : List String :=
  ["file", "line"] ++
  (if c.startLine.isSome then ["startLine"] else []) ++
  ["body"]

/-- The claimed key correspondence between the dry-run echo and the
submission payload: file stands for path and startLine for start_line. -/
def previewKeyToPayloadKey (s : String) : String :=
  if s == "file" then "path"
  else if s == "startLine" then "start_line"
  else s

/-- A review comment with only the fields that matter to threading set
distinctly. -/
def mkC (i : Nat) (r : Option Nat) : RComment :=
  ⟨i, "f", some 1, some 1, "RIGHT", "b", "u", false, "t", "t", r, "h", "url"⟩

/-- The concrete input of the threading example in the claim:
A(id=1, no reply), B(id=2, reply=1), C(id=3, reply=1), D(id=4, reply=99). -/
def c6ex : List RComment :=
  [mkC 1 none, mkC 2 (some 1), mkC 3 (some 1), mkC 4 (some 99)]

/-- Two concrete raw reviews, one submitted and one pending. -/
def c10rv : List RawReview :=
  [⟨1, "APPROVED", some "ok", "alice", "t1", "u1"⟩,
   ⟨2, "PENDING", none, "carol", "t2", "u2"⟩]

/-- A concrete all-successful environment for the snapshot tool. -/
def envPr0 : PrEnv :=
  ⟨.ok ⟨7, "T", none, "alice", "main", "feat", "OPEN", false, 3, 4, 1, [], "c", "u", "url"⟩,
   .ok "diff", .ok [], .ok []⟩

/-- A concrete all-successful environment for the comments tool. -/
def envComments0 : CommentsEnv := ⟨.ok "o/r", .ok [], .ok [], .ok []⟩

/-- A concrete all-successful environment for the review tool. -/
def envReview0 : ReviewEnv :=
  ⟨.ok "o/r", .ok "abc123", .ok ⟨10, "rurl", "COMMENTED", "t"⟩, fun _ => none⟩

end OpencodeKit

namespace OpencodeKit

example : parsePrReference "https://github.com/foo/bar/pull/123" none =
    .ok ⟨"foo", "bar", 123⟩ := rfl

example : parsePrReference "12abc" none = .ok ⟨"", "", 12⟩ := rfl

example : parsePrReference "0" none = .ok ⟨"", "", 0⟩ := rfl

example : parsePrReference "-5" none = .ok ⟨"", "", -5⟩ := rfl

example : parsePrReference "abc" none =
    .error "Invalid PR reference: abc. Provide a PR URL or number." := rfl

example : parsePrReference "17" (some "me/proj") = .ok ⟨"me", "proj", 17⟩ := rfl

example : parsePrReference "https://github.com/a/b/r/pull/5" none =
    .error "Invalid PR reference: https://github.com/a/b/r/pull/5. Provide a PR URL or number." := rfl

/-! ## C7: size classification boundaries -/

/-- C7: for every non-negative total of additions + deletions, the size
classifier returns "small" iff the total is at most 100, "medium" iff it
is between 101 and 500, "large" iff it is between 501 and 1000, and
"very large" iff it exceeds 1000. -/
theorem c7_size_classifier_boundaries (n : Nat) :
    (sizeCategory n = "small" ↔ n ≤ 100) ∧
    (sizeCategory n = "medium" ↔ 101 ≤ n ∧ n ≤ 500) ∧
    (sizeCategory n = "large" ↔ 501 ≤ n ∧ n ≤ 1000) ∧
    (sizeCategory n = "very large" ↔ 1001 ≤ n) := by
  unfold sizeCategory
  split_ifs with h1 h2 h3 <;>
    refine ⟨?_, ?_, ?_, ?_⟩ <;>
    constructor <;>
    intro hx <;>
    first
      | rfl
      | omega
      | (exact absurd hx (by decide))

/-! ## C2: when reference resolution fails -/

/-- C2 counterexample: the claim says resolution of the non-numeric,
non-URL string "12abc" fails, but parseInt(pr, 10) accepts any string
with a leading digit run, so the code resolves "12abc" to PR number 12. -/
theorem c2_counterexample :
    parsePrReference "12abc" none = .ok ⟨"", "", 12⟩ := rfl

/-- C2 amended: resolution fails (throws Invalid PR reference) exactly
when the reference neither contains a substring matching the PR-URL
regex nor, after optional whitespace and an optional sign, starts with a
decimal digit (the parseInt NaN condition).  It does not fail on strings
like "12abc" whose digit prefix parseInt accepts. -/
theorem c2_invalid_reference_amended (pr : String) (repo : Option String) :
    (∃ e, parsePrReference pr repo = .error e) ↔
      (findUrlMatch pr.data = none ∧ jsParseInt10 pr = none) := by
  unfold parsePrReference
  cases hu : findUrlMatch pr.data with
  | some m =>
    obtain ⟨o, r, n⟩ := m
    simp
  | none =>
    cases hp : jsParseInt10 pr with
    | none => simp
    | some num =>
      cases repo with
      | none => simp
      | some rp =>
        simp only [Except.error.injEq, exists_eq', true_and, iff_false, not_and,
          Option.some.injEq, false_iff, not_exists, false_and, and_false]
        split_ifs <;> simp

/-! ## C3: no positivity invariant on the parsed number -/

/-- C3 counterexample: the claim says parsing fails for every input that
would yield zero, but the code accepts "0" and returns number 0 (and
likewise accepts negative bare numbers). -/
theorem c3_counterexample :
    parsePrReference "0" none = .ok ⟨"", "", 0⟩ ∧
    parsePrReference "-5" none = .ok ⟨"", "", -5⟩ := ⟨rfl, rfl⟩

/-- C3 amended: the resolver performs no positivity check.  On success
the number is the value produced by the branch that fired: the URL
branch yields the (non-negative, possibly zero) digit-capture value, and
the bare-number branch yields whatever parseInt produced, including zero
and negative values. -/
theorem c3_no_positivity_amended (pr : String) (repo : Option String)
    (res : PrRef) (h : parsePrReference pr repo = .ok res) :
    (∃ o r n, findUrlMatch pr.data = some (o, r, n) ∧
        res.number = (n : Int) ∧ 0 ≤ res.number) ∨
      jsParseInt10 pr = some res.number := by
  unfold parsePrReference at h
  cases hu : findUrlMatch pr.data with
  | some m =>
    obtain ⟨o, r, n⟩ := m
    rw [hu] at h
    cases h
    exact Or.inl ⟨o, r, n, rfl, rfl, Int.natCast_nonneg n⟩
  | none =>
    rw [hu] at h
    cases hp : jsParseInt10 pr with
    | none => rw [hp] at h; exact absurd h (by simp)
    | some num =>
      rw [hp] at h
      right
      cases repo with
      | none => cases h; rfl
      | some rp =>
        dsimp only at h
        split at h
        · split at h
          · cases h; rfl
          · cases h; rfl
        · cases h; rfl

/-- C3 witness: the amended theorem applied at the concrete input "7". -/
theorem c3_witness :
    (∃ o r n, findUrlMatch ("7" : String).data = some (o, r, n) ∧
        (PrRef.mk "" "" 7).number = (n : Int) ∧ 0 ≤ (PrRef.mk "" "" 7).number) ∨
      jsParseInt10 "7" = some (PrRef.mk "" "" 7).number :=
  c3_no_positivity_amended "7" none ⟨"", "", 7⟩ rfl

/-! ## C6: comment thread assembly -/

/-- In the program the assembler input always comes through
shapeReviewComment, whose jsOrNullNat turns a raw 0 into null, so an
inReplyToId of some 0 never reaches the assembler. -/
theorem shapeReviewComment_no_zero_reply (raw : List RawReviewComment) :
    ∀ c ∈ raw.map shapeReviewComment, c.inReplyToId ≠ some 0 := by
  intro c hc
  rw [List.mem_map] at hc
  obtain ⟨r, hr, rfl⟩ := hc
  show jsOrNullNat r.in_reply_to_id ≠ some 0
  cases hir : r.in_reply_to_id with
  | none => simp [jsOrNullNat]
  | some n =>
    cases n with
    | zero => simp [jsOrNullNat]
    | succ k => simp [jsOrNullNat]

/-- C6: one thread per comment whose inReplyToId is null, in input order;
each thread's replies are exactly the input comments whose inReplyToId
equals that root's id, in input order; a comment referencing an id not
present in the input is in no reply list and is no thread root.  The
hypothesis excludes inReplyToId = some 0, which the mapping into RComment
(jsOrNullNat at shapeReviewComment) never produces. -/
theorem c6_thread_assembler (comments : List RComment)
    (h : ∀ c ∈ comments, c.inReplyToId ≠ some 0) :
    ((mkThreads comments).map Thread.parent =
        comments.filter (fun c => c.inReplyToId == none)) ∧
    (∀ t ∈ mkThreads comments,
        t.replies = comments.filter (fun c => c.inReplyToId == some t.parent.id)) ∧
    (∀ c ∈ comments, ∀ j, c.inReplyToId = some j →
        (∀ p ∈ comments, p.id ≠ j) →
        ∀ t ∈ mkThreads comments, c ∉ t.replies ∧ c ≠ t.parent) := by
  refine ⟨?_, ?_, ?_⟩
  · unfold mkThreads topLevelComments
    rw [List.map_map]
    have hid : (Thread.parent ∘ fun parent =>
        Thread.mk parent (comments.filter (fun c => c.inReplyToId == some parent.id))) =
        id := rfl
    rw [hid, List.map_id]
    apply List.filter_congr
    intro c hc
    cases hcr : c.inReplyToId with
    | none => rfl
    | some n =>
      have hn : n ≠ 0 := fun h0 => h c hc (by rw [hcr, h0])
      simp [jsTruthyOptNat, hn]
  · intro t ht
    unfold mkThreads at ht
    rw [List.mem_map] at ht
    obtain ⟨p, hp, rfl⟩ := ht
    rfl
  · intro c hc j hj hnone t ht
    unfold mkThreads at ht
    rw [List.mem_map] at ht
    obtain ⟨p, hp, rfl⟩ := ht
    have hpmem : p ∈ comments := List.mem_of_mem_filter hp
    constructor
    · intro hmem
      rw [List.mem_filter] at hmem
      have h2 := hmem.2
      rw [hj] at h2
      have hjp : j = p.id := by simpa using h2
      exact hnone p hpmem hjp.symm
    · intro hcp
      unfold topLevelComments at hp
      rw [List.mem_filter] at hp
      have hfalsy := hp.2
      have hpc : c = p := hcp
      rw [← hpc, hj] at hfalsy
      have hj0 : j ≠ 0 := fun h0 => h c hc (by rw [hj, h0])
      simp [jsTruthyOptNat, hj0] at hfalsy

/-- C6 witness: the theorem applied to the concrete example of the claim,
together with the concrete evaluation showing one thread with parent A
and replies [B, C], with D nowhere. -/
theorem c6_witness :
    ((∀ c ∈ c6ex, c.inReplyToId ≠ some 0) ∧
      mkThreads c6ex = [⟨mkC 1 none, [mkC 2 (some 1), mkC 3 (some 1)]⟩]) ∧
    (((mkThreads c6ex).map Thread.parent =
        c6ex.filter (fun c => c.inReplyToId == none)) ∧
     (∀ t ∈ mkThreads c6ex,
        t.replies = c6ex.filter (fun c => c.inReplyToId == some t.parent.id)) ∧
     (∀ c ∈ c6ex, ∀ j, c.inReplyToId = some j →
        (∀ p ∈ c6ex, p.id ≠ j) →
        ∀ t ∈ mkThreads c6ex, c ∉ t.replies ∧ c ≠ t.parent)) :=
  ⟨⟨by decide, by decide⟩, c6_thread_assembler c6ex (by decide)⟩

/-! ## C10: pending reviews are excluded -/

/-- The shaped review list keeps exactly the states of the non-PENDING
raw reviews, in order. -/
theorem mkReviews_map_state (rv : List RawReview) :
    (mkReviews rv).map Review.state =
      (rv.map RawReview.state).filter (fun s => s != "PENDING") := by
  induction rv with
  | nil => rfl
  | cons r rs ih =>
    unfold mkReviews at ih ⊢
    rw [List.map_cons, List.filter_cons, List.filter_cons]
    cases hq : (r.state != "PENDING") <;> simp [hq, ih, shapeReview]

/-- C10: the comment-fetch output's reviews are exactly the raw reviews
whose state is not PENDING, in input order (shaped by shapeReview), and
the totalReviews statistic counts only those. -/
theorem c10_pending_reviews_excluded (rc : List RawReviewComment)
    (ic : List RawIssueComment) (rv : List RawReview) :
    ((mkCommentsOutput rc ic rv).reviews =
        (rv.filter (fun r => r.state != "PENDING")).map shapeReview) ∧
    ((mkCommentsOutput rc ic rv).reviews.map Review.state =
        (rv.map RawReview.state).filter (fun s => s != "PENDING")) ∧
    (∀ v ∈ (mkCommentsOutput rc ic rv).reviews, v.state ≠ "PENDING") ∧
    ((mkCommentsOutput rc ic rv).stats.totalReviews =
        (rv.filter (fun r => r.state != "PENDING")).length) := by
  refine ⟨rfl, mkReviews_map_state rv, ?_, ?_⟩
  · intro v hv
    have hv' : v ∈ mkReviews rv := hv
    unfold mkReviews at hv'
    rw [List.mem_map] at hv'
    obtain ⟨r, hr, rfl⟩ := hv'
    rw [List.mem_filter] at hr
    have h2 := hr.2
    intro heq
    rw [show (shapeReview r).state = r.state from rfl] at heq
    rw [heq] at h2
    simp at h2
  · show (mkReviews rv).length = _
    unfold mkReviews
    rw [List.length_map]

/-- C10 witness: the theorem applied at a concrete input where the
pending review is dropped from both the list and the statistic. -/
theorem c10_witness :
    ((mkCommentsOutput [] [] c10rv).reviews =
        [⟨1, "APPROVED", "ok", "alice", false, "t1", "u1"⟩] ∧
      (mkCommentsOutput [] [] c10rv).stats.totalReviews = 1) ∧
    (((mkCommentsOutput [] [] c10rv).reviews =
        (c10rv.filter (fun r => r.state != "PENDING")).map shapeReview) ∧
     ((mkCommentsOutput [] [] c10rv).reviews.map Review.state =
        (c10rv.map RawReview.state).filter (fun s => s != "PENDING")) ∧
     (∀ v ∈ (mkCommentsOutput [] [] c10rv).reviews, v.state ≠ "PENDING") ∧
     ((mkCommentsOutput [] [] c10rv).stats.totalReviews =
        (c10rv.filter (fun r => r.state != "PENDING")).length)) :=
  ⟨by decide, c10_pending_reviews_excluded [] [] c10rv⟩

/-! ## C1: errors at the tool boundary -/

/-- C1 counterexample: a malformed PR reference is thrown past the tool
boundary by every one of the three tools rather than returned as a
structured error object, because parsePrReference throws and is invoked
before any try block. -/
theorem c1_counterexample :
    executePr ⟨"abc", none⟩ envPr0 =
      .thrown "Invalid PR reference: abc. Provide a PR URL or number." ∧
    executeComments ⟨"abc", none⟩ envComments0 =
      .thrown "Invalid PR reference: abc. Provide a PR URL or number." ∧
    (executeReview ⟨"abc", none, "b", none, none, none⟩ envReview0).1 =
      .thrown "Invalid PR reference: abc. Provide a PR URL or number." :=
  ⟨rfl, rfl, rfl⟩

/-- C1 amended: whenever the PR reference parses, each of the three
tools always returns a value (and every returned failure is a structured
object carrying an error string, by the shape of PrResult,
CommentsResult and ReviewOutput); but when the reference is malformed,
the parse exception propagates out of execute uncaught. -/
theorem c1_error_boundary_amended :
    (∀ (args : PrArgs) (env : PrEnv) (res : PrRef),
        parsePrReference args.pr args.repo = .ok res →
        ∃ out, executePr args env = .returned out) ∧
    (∀ (args : CommentsArgs) (env : CommentsEnv) (res : PrRef),
        parsePrReference args.pr args.repo = .ok res →
        ∃ out, executeComments args env = .returned out) ∧
    (∀ (args : ReviewArgs) (env : ReviewEnv) (res : PrRef),
        parsePrReference args.pr args.repo = .ok res →
        ∃ out, (executeReview args env).1 = .returned out) ∧
    (∀ (args : PrArgs) (env : PrEnv) (e : String),
        parsePrReference args.pr args.repo = .error e →
        executePr args env = .thrown e) ∧
    (∀ (args : CommentsArgs) (env : CommentsEnv) (e : String),
        parsePrReference args.pr args.repo = .error e →
        executeComments args env = .thrown e) ∧
    (∀ (args : ReviewArgs) (env : ReviewEnv) (e : String),
        parsePrReference args.pr args.repo = .error e →
        (executeReview args env).1 = .thrown e) := by
  refine ⟨fun args env res h => ?_, fun args env res h => ?_,
    fun args env res h => ?_, fun args env e h => ?_,
    fun args env e h => ?_, fun args env e h => ?_⟩
  · unfold executePr; rw [h]; exact ⟨_, rfl⟩
  · unfold executeComments; rw [h]; exact ⟨_, rfl⟩
  · unfold executeReview; rw [h]; exact ⟨_, rfl⟩
  · unfold executePr; rw [h]
  · unfold executeComments; rw [h]
  · unfold executeReview; rw [h]

/-- C1 witness: the amended theorem applied to concrete valid inputs. -/
theorem c1_witness :
    (∃ out, executePr ⟨"7", none⟩ envPr0 = .returned out) ∧
    (∃ out, executeComments ⟨"7", none⟩ envComments0 = .returned out) ∧
    (∃ out, (executeReview
        ⟨"https://github.com/o/r/pull/7", none, "b", none, none, none⟩
        envReview0).1 = .returned out) :=
  ⟨c1_error_boundary_amended.1 ⟨"7", none⟩ envPr0 ⟨"", "", 7⟩ rfl,
   c1_error_boundary_amended.2.1 ⟨"7", none⟩ envComments0 ⟨"", "", 7⟩ rfl,
   c1_error_boundary_amended.2.2.1
     ⟨"https://github.com/o/r/pull/7", none, "b", none, none, none⟩
     envReview0 ⟨"o", "r", 7⟩ rfl⟩

/-! ## C4: dry-run behaviour -/

/-- The repository-context step never issues a submitReview call. -/
theorem resolveRepoContext_no_submit (parsed : PrRef)
    (rv : Except String String) (x : Option String) (tr : List GhCall)
    (hres : resolveRepoContext parsed rv = (x, tr)) :
    ∀ rc n p, GhCall.submitReview rc n p ∉ tr := by
  unfold resolveRepoContext at hres
  split at hres
  · cases hres; simp
  · cases rv <;> cases hres <;> simp


/-- C4 counterexample: a dry-run invocation still performs a gh CLI
process invocation (the head-commit fetch happens before the dryRun
branch), contradicting the claim that no external CLI call occurs. -/
theorem c4_counterexample :
    executeReview
        ⟨"https://github.com/o/r/pull/7", none, "b", none, none, some true⟩
        envReview0 =
      (.returned (.dryRunOut
        ⟨"o/r", 7, "https://github.com/o/r/pull/7", "COMMENT", "b", [], 0,
         "Dry run complete. No review was submitted. Remove --dry-run to submit the review."⟩),
       [GhCall.headSha "o/r" 7]) := rfl

/-- The dry-run behaviour of the review body: no submitReview call is
ever issued; the echo carries the synthesized permalink, the comment
count, the comment echoes, the body and the event; and the submit-mode
run with the same inputs performs exactly the same CLI calls plus one
final submitReview. -/
theorem reviewBody_dry_run (args : ReviewArgs) (parsed : PrRef)
    (env : ReviewEnv) (h : args.dryRun = some true) :
    (∀ rc n p, GhCall.submitReview rc n p ∉ (executeReviewBody args parsed env).2) ∧
    (∀ d, (executeReviewBody args parsed env).1 = .dryRunOut d →
        (d.prUrl = "https://github.com/" ++ d.repository ++ "/pull/" ++
            toString d.pullRequest ∧
         d.totalInlineComments = (args.comments.getD []).length ∧
         d.inlineComments = (args.comments.getD []).map mkPreviewComment ∧
         d.reviewBody = args.body ∧
         d.event = args.event.getD "COMMENT") ∧
        ∃ rc n p,
          (executeReviewBody ({args with dryRun := some false}) parsed env).2 =
            (executeReviewBody args parsed env).2 ++ [GhCall.submitReview rc n p]) := by
  have hdr : args.dryRun.getD false = true := by rw [h]; rfl
  unfold executeReviewBody
  rcases hres : resolveRepoContext parsed env.repoView with ⟨mctx, tr0⟩
  have htr0 := resolveRepoContext_no_submit parsed env.repoView mctx tr0 hres
  cases mctx with
  | none =>
    dsimp only
    exact ⟨fun rc n p => htr0 rc n p, fun d hd => by simp at hd⟩
  | some repoContext =>
    dsimp only
    cases hsha : env.headSha with
    | error msg =>
      dsimp only
      refine ⟨fun rc n p hmem => ?_, fun d hd => by simp at hd⟩
      rw [List.mem_append] at hmem
      rcases hmem with hmem | hmem
      · exact absurd hmem (htr0 rc n p)
      · simp at hmem
    | ok sha =>
      dsimp only
      rw [if_pos hdr]
      constructor
      · intro rc n p hmem
        rw [List.mem_append] at hmem
        rcases hmem with hmem | hmem
        · exact absurd hmem (htr0 rc n p)
        · simp at hmem
      · intro d hd
        dsimp only at hd
        have hd' := (ReviewOutput.dryRunOut.injEq _ _).mp hd
        refine ⟨by rw [← hd']; exact ⟨rfl, rfl, rfl, rfl, rfl⟩, ?_⟩
        have hdr' : ({args with dryRun := some false} : ReviewArgs).dryRun.getD false =
            false := rfl
        rw [if_neg (by rw [hdr']; simp)]
        cases hsub : env.submit with
        | ok resp =>
          exact ⟨repoContext, parsed.number, _, by rw [List.append_assoc]; rfl⟩
        | error msg =>
          exact ⟨repoContext, parsed.number, _, by rw [List.append_assoc]; rfl⟩

/-- C4 amended: with the dry-run flag set, the review tool performs the
same local shaping and the same gh CLI read calls as submit mode
(repository-context resolution and the head-commit fetch do still run,
i.e. CLI process invocations do occur) but never issues the submitReview
POST; the echo it returns carries a synthesized PR permalink and an
explicit inline-comment count; the submit-mode run with identical inputs
performs the identical call sequence plus exactly one final submit. -/
theorem c4_dry_run_amended (args : ReviewArgs) (env : ReviewEnv)
    (h : args.dryRun = some true) :
    (∀ rc n p, GhCall.submitReview rc n p ∉ (executeReview args env).2) ∧
    (∀ d, (executeReview args env).1 = .returned (.dryRunOut d) →
        (d.prUrl = "https://github.com/" ++ d.repository ++ "/pull/" ++
            toString d.pullRequest ∧
         d.totalInlineComments = (args.comments.getD []).length ∧
         d.inlineComments = (args.comments.getD []).map mkPreviewComment ∧
         d.reviewBody = args.body ∧
         d.event = args.event.getD "COMMENT") ∧
        ∃ rc n p,
          (executeReview ({args with dryRun := some false}) env).2 =
            (executeReview args env).2 ++ [GhCall.submitReview rc n p]) := by
  unfold executeReview
  cases hparse : parsePrReference args.pr args.repo with
  | error e =>
    dsimp only
    refine ⟨fun rc n p hmem => by simp at hmem, fun d hd => by simp at hd⟩
  | ok parsed =>
    dsimp only
    have hbody := reviewBody_dry_run args parsed env h
    refine ⟨fun rc n p => hbody.1 rc n p, fun d hd => ?_⟩
    have hd' : (executeReviewBody args parsed env).1 = .dryRunOut d := by
      simpa using hd
    exact hbody.2 d hd'

/-- C4 witness: the amended theorem applied at a concrete dry-run input,
with the echo fields confirmed. -/
theorem c4_witness :
    ((∀ rc n p, GhCall.submitReview rc n p ∉
        (executeReview
          ⟨"https://github.com/o/r/pull/7", none, "b", none, none, some true⟩
          envReview0).2) ∧
     (∀ d, (executeReview
          ⟨"https://github.com/o/r/pull/7", none, "b", none, none, some true⟩
          envReview0).1 = .returned (.dryRunOut d) →
        (d.prUrl = "https://github.com/" ++ d.repository ++ "/pull/" ++
            toString d.pullRequest ∧
         d.totalInlineComments =
           ((⟨"https://github.com/o/r/pull/7", none, "b", none, none, some true⟩ :
              ReviewArgs).comments.getD []).length ∧
         d.inlineComments =
           ((⟨"https://github.com/o/r/pull/7", none, "b", none, none, some true⟩ :
              ReviewArgs).comments.getD []).map mkPreviewComment ∧
         d.reviewBody = "b" ∧
         d.event = ((⟨"https://github.com/o/r/pull/7", none, "b", none, none, some true⟩ :
              ReviewArgs).event.getD "COMMENT")) ∧
        ∃ rc n p,
          (executeReview ({(⟨"https://github.com/o/r/pull/7", none, "b", none, none,
              some true⟩ : ReviewArgs) with dryRun := some false}) envReview0).2 =
            (executeReview
              ⟨"https://github.com/o/r/pull/7", none, "b", none, none, some true⟩
              envReview0).2 ++ [GhCall.submitReview rc n p])) :=
  c4_dry_run_amended
    ⟨"https://github.com/o/r/pull/7", none, "b", none, none, some true⟩
    envReview0 rfl

/-! ## C8: zero inline comments omit the comments field -/

/-- Every submitReview call issued by the review body with an empty
inline-comment list carries a payload whose comments field is absent,
and any successful submission reports zero posted inline comments. -/
theorem reviewBody_empty_comments (args : ReviewArgs) (parsed : PrRef)
    (env : ReviewEnv) (h : args.comments.getD [] = []) :
    (∀ rc n p, GhCall.submitReview rc n p ∈ (executeReviewBody args parsed env).2 →
        p.comments = none) ∧
    (∀ s, (executeReviewBody args parsed env).1 = .successOut s →
        s.inlineCommentsPosted = 0) := by
  unfold executeReviewBody
  rcases hres : resolveRepoContext parsed env.repoView with ⟨mctx, tr0⟩
  have htr0 := resolveRepoContext_no_submit parsed env.repoView mctx tr0 hres
  cases mctx with
  | none =>
    dsimp only
    exact ⟨fun rc n p hmem => absurd hmem (htr0 rc n p), fun s hs => by simp at hs⟩
  | some repoContext =>
    dsimp only
    cases hsha : env.headSha with
    | error msg =>
      dsimp only
      refine ⟨fun rc n p hmem => ?_, fun s hs => by simp at hs⟩
      rw [List.mem_append] at hmem
      rcases hmem with hmem | hmem
      · exact absurd hmem (htr0 rc n p)
      · simp at hmem
    | ok sha =>
      dsimp only
      by_cases hdr : args.dryRun.getD false = true
      · rw [if_pos hdr]
        refine ⟨fun rc n p hmem => ?_, fun s hs => by simp at hs⟩
        rw [List.mem_append] at hmem
        rcases hmem with hmem | hmem
        · exact absurd hmem (htr0 rc n p)
        · simp at hmem
      · rw [if_neg hdr]
        cases hsub : env.submit with
        | ok resp =>
          constructor
          · intro rc n p hmem
            rw [List.mem_append] at hmem
            rcases hmem with hmem | hmem
            · exact absurd hmem (htr0 rc n p)
            · rcases List.mem_cons.mp hmem with hmem | hmem
              · exact absurd hmem (by simp)
              · have hp3 : rc = repoContext ∧ n = parsed.number ∧
                    p = buildReviewPayload (jsTrim sha) args.body
                      (args.event.getD "COMMENT") (args.comments.getD []) := by
                  simpa using List.mem_singleton.mp hmem
                rw [hp3.2.2, h]
                rfl
          · intro s hs
            dsimp only at hs
            have hs' := (ReviewOutput.successOut.injEq _ _).mp hs.symm
            rw [hs']
            dsimp only
            rw [h]
            rfl
        | error msg =>
          refine ⟨fun rc n p hmem => ?_, fun s hs => by simp at hs⟩
          rw [List.mem_append] at hmem
          rcases hmem with hmem | hmem
          · exact absurd hmem (htr0 rc n p)
          · rcases List.mem_cons.mp hmem with hmem | hmem
            · exact absurd hmem (by simp)
            · have hp3 : rc = repoContext ∧ n = parsed.number ∧
                  p = buildReviewPayload (jsTrim sha) args.body
                    (args.event.getD "COMMENT") (args.comments.getD []) := by
                simpa using List.mem_singleton.mp hmem
              rw [hp3.2.2, h]
              rfl

/-- C8: building a review payload from an empty inline-comment list
omits the comments field entirely (none models key absence in the
serialized JSON, distinct from an empty array), and the submission
otherwise proceeds normally: every payload actually submitted has the
field absent and a successful run reports zero posted comments. -/
theorem c8_empty_comments_field_omitted (commitId body event : String)
    (args : ReviewArgs) (env : ReviewEnv)
    (h : args.comments.getD [] = []) :
    ((buildReviewPayload commitId body event []).comments = none) ∧
    (∀ rc n p, GhCall.submitReview rc n p ∈ (executeReview args env).2 →
        p.comments = none) ∧
    (∀ s, (executeReview args env).1 = .returned (.successOut s) →
        s.inlineCommentsPosted = 0) := by
  refine ⟨rfl, ?_, ?_⟩
  · intro rc n p hmem
    unfold executeReview at hmem
    cases hparse : parsePrReference args.pr args.repo with
    | error e => rw [hparse] at hmem; simp at hmem
    | ok parsed =>
      rw [hparse] at hmem
      exact (reviewBody_empty_comments args parsed env h).1 rc n p hmem
  · intro s hs
    unfold executeReview at hs
    cases hparse : parsePrReference args.pr args.repo with
    | error e => rw [hparse] at hs; simp at hs
    | ok parsed =>
      rw [hparse] at hs
      simp only [ToolResult.returned.injEq] at hs
      exact (reviewBody_empty_comments args parsed env h).2 s hs

/-- C8 witness: a full concrete run with zero inline comments: the
submitted payload has no comments field and the run succeeds. -/
theorem c8_witness :
    (executeReview ⟨"https://github.com/o/r/pull/7", none, "b", none, none, none⟩
        envReview0 =
      (.returned (.successOut
        ⟨10, "rurl", "COMMENTED", "t", "o/r", 7, "COMMENT", 0,
         "Review submitted successfully. View it at: rurl"⟩),
       [GhCall.headSha "o/r" 7,
        GhCall.submitReview "o/r" 7 ⟨"abc123", "b", "COMMENT", none⟩])) ∧
    (((buildReviewPayload "abc123" "b" "COMMENT" []).comments = none) ∧
     (∀ rc n p, GhCall.submitReview rc n p ∈
          (executeReview ⟨"https://github.com/o/r/pull/7", none, "b", none, none, none⟩
            envReview0).2 → p.comments = none) ∧
     (∀ s, (executeReview ⟨"https://github.com/o/r/pull/7", none, "b", none, none, none⟩
            envReview0).1 = .returned (.successOut s) →
        s.inlineCommentsPosted = 0)) :=
  ⟨rfl,
   c8_empty_comments_field_omitted "abc123" "b" "COMMENT"
     ⟨"https://github.com/o/r/pull/7", none, "b", none, none, none⟩
     envReview0 rfl⟩

/-! ## C5: preview vs submission payload shape -/

/-- C5 counterexample: for a comment with side set, the submission
payload serializes a side key but the dry-run echo never carries one (it
only echoes file, line, startLine, body), so the per-comment field sets
are not isomorphic. -/
theorem c5_counterexample :
    (mapPayloadComment ⟨"f", 3, some "LEFT", none, none, "b"⟩).side = some "LEFT" ∧
    payloadCommentFields (mapPayloadComment ⟨"f", 3, some "LEFT", none, none, "b"⟩) =
      ["path", "line", "body", "side"] ∧
    previewCommentFields (mkPreviewComment ⟨"f", 3, some "LEFT", none, none, "b"⟩) =
      ["file", "line", "body"] ∧
    "side" ∉ (previewCommentFields
        (mkPreviewComment ⟨"f", 3, some "LEFT", none, none, "b"⟩)).map
      previewKeyToPayloadKey := by
  refine ⟨rfl, rfl, rfl, ?_⟩
  decide

/-- C5 amended: the dry-run echo and the submission payload have
matching per-comment key sets (file standing for path and startLine for
start_line) only for comments with no side, no startSide, and no
startLine equal to 0; in general the echo omits side and startSide even
when the submission payload carries them. -/
theorem c5_payload_shape_amended (c : CommentInput)
    (hs : c.side = none) (hss : c.startSide = none) (hsl : c.startLine ≠ some 0) :
    ((previewCommentFields (mkPreviewComment c)).map previewKeyToPayloadKey).Perm
      (payloadCommentFields (mapPayloadComment c)) := by
  cases hl : c.startLine with
  | none =>
    simp [previewCommentFields, payloadCommentFields, mkPreviewComment,
      mapPayloadComment, hs, hss, hl, truthyStr, truthyNat, previewKeyToPayloadKey]
  | some n =>
    have hn : n ≠ 0 := fun h0 => hsl (by rw [hl, h0])
    simp [previewCommentFields, payloadCommentFields, mkPreviewComment,
      mapPayloadComment, hs, hss, hl, hn, truthyStr, truthyNat, previewKeyToPayloadKey]
    decide

/-- C5 witness: the amended theorem applied at a concrete comment with
no side, no startSide and a set startLine. -/
theorem c5_witness :
    ((previewCommentFields (mkPreviewComment ⟨"f", 3, none, some 2, none, "b"⟩)).map
        previewKeyToPayloadKey).Perm
      (payloadCommentFields (mapPayloadComment ⟨"f", 3, none, some 2, none, "b"⟩)) :=
  c5_payload_shape_amended ⟨"f", 3, none, some 2, none, "b"⟩ rfl rfl (by decide)

/-! ## C9: URL-shaped resolution and precedence -/

/-- Dropping a literal prefix from that very prefix appended to a rest
yields the rest. -/
theorem dropLit_append (ps cs : List Char) : dropLit ps (ps ++ cs) = some cs := by
  induction ps with
  | nil => rfl
  | cons p ps ih => simp [dropLit, ih]

/-- takeWhile/dropWhile on a run of non-slash characters followed by a
slash split exactly at the slash. -/
theorem takeWhile_nonslash (l r : List Char) (h : ∀ a ∈ l, a ≠ '/') :
    (l ++ '/' :: r).takeWhile (fun c => c != '/') = l ∧
    (l ++ '/' :: r).dropWhile (fun c => c != '/') = '/' :: r := by
  induction l with
  | nil => constructor <;> simp
  | cons a l ih =>
    have ha : (a != '/') = true := by
      simpa using h a (by simp)
    have ih' := ih (fun x hx => h x (by simp [hx]))
    constructor <;> simp [List.takeWhile_cons, List.dropWhile_cons, ha, ih'.1, ih'.2]

/-- takeWhile isDigit keeps an all-digit list whole. -/
theorem takeWhile_digits (l : List Char) (h : ∀ a ∈ l, a.isDigit) :
    l.takeWhile Char.isDigit = l := by
  induction l with
  | nil => rfl
  | cons a l ih =>
    have ha := h a (by simp)
    simp [List.takeWhile_cons, ha, ih (fun x hx => h x (by simp [hx]))]

/-- The regex cannot match at a position whose first character is not
the g of the literal github.com/. -/
theorem matchUrlAt_ne (c : Char) (h : c ≠ 'g') (cs : List Char) :
    matchUrlAt (c :: cs) = none := by
  unfold matchUrlAt
  have e : "github.com/".data = 'g' :: "ithub.com/".data := rfl
  rw [e]
  simp [dropLit, h]

/-- Scanning skips any position whose first character is not g. -/
theorem findUrlMatch_cons_ne (c : Char) (h : c ≠ 'g') (cs : List Char) :
    findUrlMatch (c :: cs) = findUrlMatch cs := by
  rw [show findUrlMatch (c :: cs) = (match matchUrlAt (c :: cs) with
      | some m => some m
      | none => findUrlMatch cs) from rfl]
  rw [matchUrlAt_ne c h cs]

/-- When the regex matches at the head of the list, the scan returns
that match. -/
theorem findUrlMatch_github (rest : List Char) (m : String × String × Nat)
    (h : matchUrlAt ("github.com/".data ++ rest) = some m) :
    findUrlMatch ("github.com/".data ++ rest) = some m := by
  have e : "github.com/".data ++ rest = 'g' :: ("ithub.com/".data ++ rest) := rfl
  rw [e] at h ⊢
  unfold findUrlMatch
  rw [h]

/-- The regex matched at an exact well-formed URL tail captures the
owner, repo and digit segments whole. -/
theorem matchUrlAt_exact (lo lr ln : List Char)
    (hlo : lo ≠ []) (hlr : lr ≠ []) (hln : ln ≠ [])
    (hOs : ∀ a ∈ lo, a ≠ '/') (hRs : ∀ a ∈ lr, a ≠ '/')
    (hNd : ∀ a ∈ ln, a.isDigit) :
    matchUrlAt ("github.com/".data ++ (lo ++ ('/' :: (lr ++ ("/pull/".data ++ ln))))) =
      some (String.mk lo, String.mk lr, digitsToNat ln) := by
  unfold matchUrlAt
  rw [dropLit_append]
  dsimp only
  have h1 := takeWhile_nonslash lo (lr ++ ("/pull/".data ++ ln)) hOs
  rw [h1.1, h1.2]
  have hloe : lo.isEmpty = false := by
    cases lo with
    | nil => exact absurd rfl hlo
    | cons a as => rfl
  rw [hloe]
  dsimp only
  rw [show dropLit ['/'] ('/' :: (lr ++ ("/pull/".data ++ ln))) =
    some (lr ++ ("/pull/".data ++ ln)) from rfl]
  dsimp only
  have e2 : lr ++ ("/pull/".data ++ ln) = lr ++ '/' :: ("pull/".data ++ ln) := rfl
  rw [e2]
  have h2 := takeWhile_nonslash lr ("pull/".data ++ ln) hRs
  rw [h2.1, h2.2]
  have hlre : lr.isEmpty = false := by
    cases lr with
    | nil => exact absurd rfl hlr
    | cons a as => rfl
  rw [hlre]
  dsimp only
  have e3 : ('/' :: ("pull/".data ++ ln)) = "/pull/".data ++ ln := rfl
  rw [e3, dropLit_append]
  dsimp only
  rw [takeWhile_digits ln hNd]
  have hlne : ln.isEmpty = false := by
    cases ln with
    | nil => exact absurd rfl hln
    | cons a as => rfl
  rw [hlne]
  rfl

/-- C9 counterexample: the claim quantifies over all strings O and R,
but for O = "a/b" (a string containing a slash) the URL
https://github.com/a/b/r/pull/5 does not resolve to
owner "a/b", repo "r", number 5 - it throws instead. -/
theorem c9_counterexample :
    parsePrReference ("https://github.com/" ++ "a/b" ++ "/" ++ "r" ++ "/pull/" ++ "5") none =
      .error "Invalid PR reference: https://github.com/a/b/r/pull/5. Provide a PR URL or number." := rfl

/-- C9 amended: for all non-empty slash-free owner and repo segments and
every non-empty digit string, resolving the well-formed URL returns
exactly that owner, repo and number; and the URL-shape interpretation
strictly precedes the bare-number interpretation: whenever the regex
matches anywhere in the input, its captures are returned and the integer
parse is never consulted. -/
theorem c9_url_resolution_amended (O R N : String)
    (hO : O ≠ "") (hR : R ≠ "") (hN : N ≠ "")
    (hOs : ∀ a ∈ O.data, a ≠ '/') (hRs : ∀ a ∈ R.data, a ≠ '/')
    (hNd : ∀ a ∈ N.data, a.isDigit) :
    (parsePrReference ("https://github.com/" ++ O ++ "/" ++ R ++ "/pull/" ++ N) none =
      .ok ⟨O, R, (digitsToNat N.data : Int)⟩) ∧
    (∀ pr repo o r n, findUrlMatch pr.data = some (o, r, n) →
        parsePrReference pr repo = .ok ⟨o, r, (n : Int)⟩) := by
  constructor
  · obtain ⟨lo⟩ := O
    obtain ⟨lr⟩ := R
    obtain ⟨ln⟩ := N
    have hlo : lo ≠ [] := fun hh => hO (by rw [hh])
    have hlr : lr ≠ [] := fun hh => hR (by rw [hh])
    have hln : ln ≠ [] := fun hh => hN (by rw [hh])
    have hdata : (("https://github.com/" ++ (⟨lo⟩ : String) ++ "/" ++ (⟨lr⟩ : String) ++
          "/pull/" ++ (⟨ln⟩ : String)) : String).data =
        'h' :: 't' :: 't' :: 'p' :: 's' :: ':' :: '/' :: '/' :: ("github.com/".data ++
          (lo ++ ('/' :: (lr ++ ("/pull/".data ++ ln))))) := by
      show (((("https://github.com/".data ++ lo) ++ "/".data) ++ lr) ++
          "/pull/".data) ++ ln = _
      simp only [List.append_assoc]
      rfl
    have hfind : findUrlMatch
        ('h' :: 't' :: 't' :: 'p' :: 's' :: ':' :: '/' :: '/' :: ("github.com/".data ++
          (lo ++ ('/' :: (lr ++ ("/pull/".data ++ ln)))))) =
        some (String.mk lo, String.mk lr, digitsToNat ln) := by
      rw [findUrlMatch_cons_ne 'h' (by decide), findUrlMatch_cons_ne 't' (by decide),
        findUrlMatch_cons_ne 't' (by decide), findUrlMatch_cons_ne 'p' (by decide),
        findUrlMatch_cons_ne 's' (by decide), findUrlMatch_cons_ne ':' (by decide),
        findUrlMatch_cons_ne '/' (by decide), findUrlMatch_cons_ne '/' (by decide)]
      exact findUrlMatch_github _ _ (matchUrlAt_exact lo lr ln hlo hlr hln hOs hRs hNd)
    unfold parsePrReference
    rw [hdata, hfind]
  · intro pr repo o r n hm
    unfold parsePrReference
    rw [hm]

/-- C9 witness: the amended theorem applied at owner foo, repo bar,
number 123. -/
theorem c9_witness :
    (parsePrReference ("https://github.com/" ++ "foo" ++ "/" ++ "bar" ++ "/pull/" ++ "123") none =
      .ok ⟨"foo", "bar", (digitsToNat ("123" : String).data : Int)⟩) ∧
    (∀ pr repo o r n, findUrlMatch pr.data = some (o, r, n) →
        parsePrReference pr repo = .ok ⟨o, r, (n : Int)⟩) :=
  c9_url_resolution_amended "foo" "bar" "123" (by decide) (by decide) (by decide)
    (by decide) (by decide) (by decide)

end OpencodeKit
